import Mathlib

/-!
Verification model of the `drtinaz/scripts` virtual-switch service
(`src/switches/mqtt_switches.py`, with the serial-number fragment of the
earlier non-MQTT variant `src/switches/switches.py`).

The Python code is shallowly embedded: the attribute tree of one device is an
association list from path strings to values, the ini-style config store is an
association list of sections, and each Python handler becomes a pure function
returning the new state together with the broker publishes and config writes
it performs.  Python string operations (`strip`, `lower`, `int(...)`,
`in`, `split`, `replace`) are modelled over `List Char` for the ASCII
payloads the service deals in.  The GLib `idle_add` handoff is modelled by
applying the scheduled attribute update immediately (single-threaded event
loop), and `paho` publish calls are recorded as data instead of performing
network I/O.
-/

namespace VSwitch

/-! ## Python string primitives (ASCII fragment) -/

/-- Whitespace characters recognised by Python `str.strip` (ASCII subset:
space, tab, newline, carriage return, vertical tab, form feed). -/
def pySpace (c : Char) : Bool :=
  decide (c.toNat = 32 ∨ c.toNat = 9 ∨ c.toNat = 10 ∨ c.toNat = 13 ∨
    c.toNat = 11 ∨ c.toNat = 12)

/-- Python `str.lower` on one character (ASCII case folding, which is all the
service's payload tokens use). -/
def pyLowerChar (c : Char) : Char :=
  if 65 ≤ c.toNat ∧ c.toNat ≤ 90 then Char.ofNat (c.toNat + 32) else c

/-- Python `str.lower` over a character list. -/
def lowerL (l : List Char) : List Char := l.map pyLowerChar

/-- Python `str.strip` over a character list: drop leading and trailing
whitespace. -/
def stripL (l : List Char) : List Char :=
  (((l.dropWhile pySpace).reverse.dropWhile pySpace)).reverse

/-- Python `str.strip` on a `String`. -/
def pyStrip (s : String) : String := String.mk (stripL s.toList)

/-- Python `str.lower` on a `String`. -/
def pyLower (s : String) : String := String.mk (lowerL s.toList)

/-- Value of an ASCII digit character, used by the `int(...)` model. -/
def digitVal (c : Char) : Nat := c.toNat - 48

/-- ASCII digit test (the digits `int(...)` accepts here). -/
def isDigitC (c : Char) : Bool := decide (48 ≤ c.toNat ∧ c.toNat ≤ 57)

/-- Digit-run parser for Python `int(...)`: after the first digit, single
underscores are permitted between digits (`int("1_0") = 10`). -/
def parseDigitsAux (acc : Nat) : List Char → Option Nat
  | [] => some acc
  | '_' :: c :: rest =>
      if isDigitC c then parseDigitsAux (acc * 10 + digitVal c) rest else none
  | c :: rest =>
      if isDigitC c then parseDigitsAux (acc * 10 + digitVal c) rest else none

/-- Nonempty digit run starting with a digit (no leading underscore). -/
def parseDigits : List Char → Option Nat
  | [] => none
  | c :: rest => if isDigitC c then parseDigitsAux (digitVal c) rest else none

/-- Python `int(s)` on a string: surrounding whitespace is ignored, an
optional sign precedes a nonempty digit run; anything else raises
`ValueError`, modelled as `none`. -/
def pyIntL (l : List Char) : Option Int :=
  match stripL l with
  | '+' :: rest => (parseDigits rest).map Int.ofNat
  | '-' :: rest => (parseDigits rest).map (fun n => -(n : Int))
  | rest => (parseDigits rest).map Int.ofNat

/-- Python `int(s)` on a `String`. -/
def pyInt (s : String) : Option Int := pyIntL s.toList

/-- Python `needle in hay` substring test over character lists. -/
def pyContainsL (hay needle : List Char) : Bool :=
  match hay with
  | [] => needle.isEmpty
  | _ :: t => needle.isPrefixOf hay || pyContainsL t needle

/-- Python `needle in hay` on `String`s. -/
def pyContains (hay needle : String) : Bool :=
  pyContainsL hay.toList needle.toList

/-- Python `str.split(sep)` over character lists (`"".split(sep) = [""]`,
separators at the ends produce empty segments). -/
def listSplit (sep : Char) : List Char → List (List Char)
  | [] => [[]]
  | c :: rest =>
      if c = sep then [] :: listSplit sep rest
      else
        match listSplit sep rest with
        | [] => [[c]]
        | g :: gs => (c :: g) :: gs

/-- The literal token `output_` that `handle_dbus_change` strips from the
split path segment. -/
def outputTok : List Char := "output_".toList

/-- Python `segment.replace('output_', '')`: every occurrence of the token is
removed, scanning left to right. -/
def stripOutputTok : List Char → List Char
  | [] => []
  | c :: rest =>
      if outputTok.isPrefixOf (c :: rest) then stripOutputTok (rest.drop 6)
      else c :: stripOutputTok rest
termination_by l => l.length
decreasing_by
  · simp only [List.length_cons, List.length_drop]
    omega
  · simp only [List.length_cons]
    omega

/-- Decimal rendering worker: the fuel argument only bounds the recursion
depth so the definition stays structural (and hence computes inside the
kernel); any fuel above the digit count gives the same digits. -/
def natToCharsAux : Nat → Nat → List Char
  | 0, _ => []
  | fuel + 1, n =>
      if n < 10 then [Char.ofNat (48 + n)]
      else natToCharsAux fuel (n / 10) ++ [Char.ofNat (48 + n % 10)]

/-- Decimal rendering of a natural number, matching Python `str(i)` for the
nonnegative indices the scripts format into paths and section names. -/
def natToChars (n : Nat) : List Char := natToCharsAux (n + 1) n

/-- Decimal rendering as a `String`. -/
def natStr (n : Nat) : String := String.mk (natToChars n)

/-! ## Values, attribute trees, config store -/

/-- A D-Bus value as the scripts use them: integers or strings. -/
inductive Value
  | int (n : Int)
  | str (s : String)
deriving DecidableEq, Repr

/-- Python `str(value)` for the values the scripts persist. -/
def pyStr : Value → String
  | .int n => if n < 0 then "-" ++ natStr (-n).toNat else natStr n.toNat
  | .str s => s

/-- First-match association lookup (Python dict access order for the small
maps the service builds). -/
def assocGet {α : Type} : List (String × α) → String → Option α
  | [], _ => none
  | (k', v) :: rest, k => if k' = k then some v else assocGet rest k

/-- Replace the first binding of a key, appending when absent. -/
def assocSet {α : Type} : List (String × α) → String → α → List (String × α)
  | [], k, v => [(k, v)]
  | (k', v') :: rest, k, v =>
      if k' = k then (k, v) :: rest else (k', v') :: assocSet rest k v

/-- The in-memory image of `config.ini` as `configparser` holds it: sections
in file order, each an ordered list of (already case-folded) option keys and
raw string values. -/
abbrev RawConfig : Type := List (String × List (String × String))

/-- The key transform `configparser` applies to every option key on both
reads and writes (`optionxform`, lower-casing by default). -/
def optionxform (k : String) : String := pyLower k

/-- Build one stored option the way `ConfigParser.read` stores it, so
concrete configurations can be written with their ini-file spelling. -/
def iniOpt (k v : String) : String × String := (optionxform k, v)

/-- `config.has_section(sec)`. -/
def hasSection (cfg : RawConfig) (sec : String) : Bool :=
  (assocGet cfg sec).isSome

/-- `config.get(sec, key)` returning `none` where `configparser` raises
`NoSectionError` / `NoOptionError`. -/
def getRaw (cfg : RawConfig) (sec key : String) : Option String :=
  (assocGet cfg sec).bind fun opts => assocGet opts (optionxform key)

/-- `config.set(sec, key, value)`; `configparser` raises when the section is
absent, and every caller in the scripts ensures the section exists first, so
the absent case leaves the store unchanged. -/
def configSet (cfg : RawConfig) (sec key val : String) : RawConfig :=
  match assocGet cfg sec with
  | some opts => assocSet cfg sec (assocSet opts (optionxform key) val)
  | none => cfg

/-- `config.getint(sec, key)` three-way outcome: the option is present and
parses, is absent (section or option missing), or is present but unparsable
(Python raises `ValueError`). -/
inductive GetIntOutcome
  | ok (n : Int)
  | missing
  | badValue
deriving DecidableEq, Repr

/-- `config.getint(sec, key)` as the scripts call it. -/
def configGetInt (cfg : RawConfig) (sec key : String) : GetIntOutcome :=
  match getRaw cfg sec key with
  | none => .missing
  | some v =>
      match pyInt v with
      | some n => .ok n
      | none => .badValue

/-- `DbusMyTestSwitch.save_config_change` (mqtt_switches.py lines 267-289):
re-read the store, create the section when absent, set the key, write back. -/
def save_config_change (cfg : RawConfig) (sec key val : String) : RawConfig :=
  let cfg' := if hasSection cfg sec then cfg else cfg ++ [(sec, [])]
  configSet cfg' sec key val

/-! ## The device service (`DbusMyTestSwitch` of mqtt_switches.py) -/

/-- The mutable state of one `DbusMyTestSwitch` instance: the device index,
the attribute tree (path to current value), the two topic maps built by
`add_output`, and whether the broker client is connected. -/
structure Device where
  deviceIndex : Nat
  attrs : List (String × Value)
  stateTopicMap : List (String × String)
  cmdTopicMap : List (String × String)
  mqttConnected : Bool
deriving DecidableEq, Repr

/-- One recorded `mqtt_client.publish(topic, payload, retain=...)` call. -/
structure Publish where
  topic : String
  payload : String
  retained : Bool
deriving DecidableEq, Repr

/-- Outcome of delivering one broker message: the device state afterwards,
the publishes performed (the inbound path performs none), and whether the
attribute tree was mutated. -/
structure MsgResult where
  dev : Device
  publishes : List Publish
  mutated : Bool
deriving DecidableEq, Repr

/-- Outcome of one `handle_dbus_change` callback: the boolean returned to the
bus, the publishes performed, and the `(section, key, value)` config writes
performed. -/
structure ChangeResult where
  accept : Bool
  publishes : List Publish
  configWrites : List (String × String × String)
deriving DecidableEq, Repr

/-- Payload decoding of `on_mqtt_message` after `.strip().lower()`:
`'on'` gives 1, `'off'` gives 0, otherwise `int(payload)`
(mqtt_switches.py lines 194-203). -/
def decodePayloadCore (p : String) : Option Int :=
  if p = "on" then some 1
  else if p = "off" then some 0
  else pyInt p

/-- Full payload decoding: `msg.payload.decode().strip().lower()` then the
token cases (mqtt_switches.py line 189). -/
def decodePayload (raw : String) : Option Int :=
  decodePayloadCore (pyLower (pyStrip raw))

/-- The reverse topic lookup
`next((k for k, v in self.dbus_path_to_state_topic_map.items() if v == topic), None)`
(mqtt_switches.py line 206). -/
def topicToPath (m : List (String × String)) (topic : String) : Option String :=
  match m with
  | [] => none
  | (k, v) :: rest => if v = topic then some k else topicToPath rest topic

/-- `DbusMyTestSwitch.update_dbus_from_mqtt` (lines 316-323): the scheduled
main-loop write `self[path] = value`, which changes the local attribute and
emits a change signal without invoking the change callback. -/
def update_dbus_from_mqtt (dev : Device) (path : String) (value : Int) : Device :=
  { dev with attrs := assocSet dev.attrs path (.int value) }

/-- `DbusMyTestSwitch.on_mqtt_message` (lines 183-219) with the
`GLib.idle_add` handoff applied: decode the payload, resolve the topic to its
bound path, suppress the update when the current value already equals the
decoded one, otherwise write the decoded value.  A `ValueError` from decoding
and a `KeyError` from `self[path]` on an unregistered path are both caught by
the handler (warning logged, no mutation). -/
def on_mqtt_message (dev : Device) (topic raw : String) : MsgResult :=
  match decodePayload raw with
  | none => ⟨dev, [], false⟩
  | some newState =>
      match topicToPath dev.stateTopicMap topic with
      | none => ⟨dev, [], false⟩
      | some path =>
          match assocGet dev.attrs path with
          | none => ⟨dev, [], false⟩
          | some cur =>
              if cur = Value.int newState then ⟨dev, [], false⟩
              else ⟨update_dbus_from_mqtt dev path newState, [], true⟩

/-- `DbusMyTestSwitch.publish_mqtt_command` (lines 291-314): drop when the
client is disconnected or no command topic is mapped; otherwise publish
`'ON'` for value 1 and `'OFF'` otherwise, unretained. -/
def publish_mqtt_command (dev : Device) (path : String) (value : Value) : List Publish :=
  if dev.mqttConnected = false then []
  else
    match assocGet dev.cmdTopicMap path with
    | none => []
    | some topic => [⟨topic, if value = .int 1 then "ON" else "OFF", false⟩]

/-- Result of splitting a `/Settings` path the way lines 252-255 do:
`parts = path.split('/')`, `parts[2].replace('output_', '')` and `parts[4]`;
fewer than five segments raises `IndexError`, modelled as `none`. -/
def settingsPathParts (path : String) : Option (List Char × List Char) :=
  match listSplit '/' path.toList with
  | _ :: _ :: p2 :: _ :: p4 :: _ => some (stripOutputTok p2, p4)
  | _ => none

/-- `DbusMyTestSwitch.handle_dbus_change` (lines 227-265): a `State` path is
validated to {0, 1} and forwarded to the command topic; `/CustomName` and
`/Settings` paths are persisted to the config store; anything else is
rejected. -/
def handle_dbus_change (dev : Device) (path : String) (value : Value) : ChangeResult :=
  if pyContains path "/State" then
    if value = Value.int 0 ∨ value = Value.int 1 then
      ⟨true, publish_mqtt_command dev path value, []⟩
    else ⟨false, [], []⟩
  else if path = "/CustomName" then
    ⟨true, [], [("Device_" ++ natStr dev.deviceIndex, "CustomName", pyStr value)]⟩
  else if pyContains path "/Settings" then
    match settingsPathParts path with
    | some (outIdx, key) =>
        ⟨true, [],
          [("Output_" ++ natStr dev.deviceIndex ++ "_" ++ String.mk outIdx,
            String.mk key, pyStr value)]⟩
    | none => ⟨false, [], []⟩
  else ⟨false, [], []⟩

/-- One external bus write as `vedbus` mediates it: the change callback runs
and the new value is stored only when the callback accepts. -/
def busWrite (dev : Device) (path : String) (value : Value) : Device × ChangeResult :=
  let r := handle_dbus_change dev path value
  if r.accept then ({ dev with attrs := assocSet dev.attrs path value }, r)
  else (dev, r)

/-- The registered `State` path of output `j`
(`f'/SwitchableOutput/output_{j}/State'`, mqtt_switches.py line 118). -/
def statePath (j : Nat) : String :=
  "/SwitchableOutput/output_" ++ natStr j ++ "/State"

/-- The registered settings path of output `j`
(`f'/SwitchableOutput/output_{j}/Settings'` plus the key, lines 130-132). -/
def settingsPath (j : Nat) (key : String) : String :=
  "/SwitchableOutput/output_" ++ natStr j ++ "/Settings/" ++ key

/-! ## Serial-number resolution and the supervisor -/

/-- `generate_random_serial` (mqtt_switches.py lines 50-54): one decimal
digit character per random draw, sixteen draws in use. -/
def generate_random_serial (draws : List Nat) : String :=
  String.mk (draws.map fun d => Char.ofNat (48 + d % 10))

/-- The serial-resolution fragment of `run_device_service`
(mqtt_switches.py lines 376-391): a stored nonblank serial is used as is; a
missing or blank serial is replaced by the freshly generated one, which is
written back to the store immediately. -/
def resolveSerial (cfg : RawConfig) (devSection : String) (fresh : String) :
    String × RawConfig :=
  match getRaw cfg devSection "Serial" with
  | none => (fresh, configSet cfg devSection "Serial" fresh)
  | some s =>
      if s = "" ∨ pyStrip s = "" then (fresh, configSet cfg devSection "Serial" fresh)
      else (s, cfg)

/-- The service name `f'com.victronenergy.switch.virtual_{serial_number}'`
(mqtt_switches.py line 421). -/
def service_name_of (serial : String) : String :=
  "com.victronenergy.switch.virtual_" ++ serial

/-- The serial fragment of the earlier variant's `run_device_service`
(switches.py lines 156-162): a fresh random serial is generated on every
start; the configuration (in scope at that point) is neither consulted for a
stored serial nor written back. -/
def switches_run_serial (cfg : RawConfig) (draws : List Nat) : String × RawConfig :=
  (generate_random_serial draws, cfg)

/-- `Device_<i>` section name (`f'Device_{i}'`). -/
def devSection (i : Nat) : String := "Device_" ++ natStr i

/-- Result of the supervisor `main()` launch loop. -/
structure SupRes where
  numDevices : Int
  defaulted : Bool
  started : List Nat
  skipped : List Nat
deriving DecidableEq, Repr

/-- The launch loop of `main()` (mqtt_switches.py lines 483-497): device
indices 1..N whose `Device_<i>` section exists are started, the rest are
skipped with a warning. -/
def launchLoop (cfg : RawConfig) (n : Int) : List Nat × List Nat :=
  let idxs := (List.range n.toNat).map (· + 1)
  (idxs.filter fun i => hasSection cfg (devSection i),
   idxs.filter fun i => !hasSection cfg (devSection i))

/-- `main()` of mqtt_switches.py (lines 434-507 as far as launching goes):
`config.getint('Global', 'NumberOfDevices')` defaults to 1 with a warning
when the section or option is missing (`NoSectionError` / `NoOptionError`
are caught), but an unparsable value raises an uncaught `ValueError`; then
the launch loop runs. -/
def supervisorMain (cfg : RawConfig) : Except String SupRes :=
  match configGetInt cfg "Global" "NumberOfDevices" with
  | .badValue => .error "ValueError"
  | .missing =>
      let (st, sk) := launchLoop cfg 1
      .ok ⟨1, true, st, sk⟩
  | .ok n =>
      let (st, sk) := launchLoop cfg n
      .ok ⟨n, false, st, sk⟩

/-! ## Character lemmas -/

/-- `Char.ofNat` round-trips through `toNat` below the surrogate range. -/
theorem char_toNat_ofNat (n : Nat) (h : n < 55296) : (Char.ofNat n).toNat = n := by
  have hv : n.isValidChar := Or.inl h
  unfold Char.ofNat
  rw [dif_pos hv]
  rfl

/-- Case folding adds 32 to an upper-case ASCII letter. -/
theorem pyLowerChar_toNat (c : Char) (h : 65 ≤ c.toNat ∧ c.toNat ≤ 90) :
    (pyLowerChar c).toNat = c.toNat + 32 := by
  unfold pyLowerChar
  rw [if_pos h]
  exact char_toNat_ofNat _ (by omega)

/-- Case folding leaves every other character untouched. -/
theorem pyLowerChar_eq_of (c : Char) (h : ¬(65 ≤ c.toNat ∧ c.toNat ≤ 90)) :
    pyLowerChar c = c := by
  unfold pyLowerChar
  rw [if_neg h]

/-- Case folding is idempotent. -/
theorem pyLowerChar_idem (c : Char) : pyLowerChar (pyLowerChar c) = pyLowerChar c := by
  by_cases h : 65 ≤ c.toNat ∧ c.toNat ≤ 90
  · exact pyLowerChar_eq_of _ (by have := pyLowerChar_toNat c h; omega)
  · simp only [pyLowerChar_eq_of c h]

/-- Case folding preserves whitespace-ness in both directions. -/
theorem pySpace_pyLowerChar (c : Char) : pySpace (pyLowerChar c) = pySpace c := by
  by_cases h : 65 ≤ c.toNat ∧ c.toNat ≤ 90
  · have h2 := pyLowerChar_toNat c h
    simp only [pySpace, h2]
    have hl : ¬(c.toNat + 32 = 32 ∨ c.toNat + 32 = 9 ∨ c.toNat + 32 = 10 ∨
        c.toNat + 32 = 13 ∨ c.toNat + 32 = 11 ∨ c.toNat + 32 = 12) := by omega
    have hr : ¬(c.toNat = 32 ∨ c.toNat = 9 ∨ c.toNat = 10 ∨
        c.toNat = 13 ∨ c.toNat = 11 ∨ c.toNat = 12) := by omega
    rw [decide_eq_false hl, decide_eq_false hr]
  · rw [pyLowerChar_eq_of c h]

/-- A digit character is not whitespace. -/
theorem pySpace_of_digit (c : Char) (h : isDigitC c = true) : pySpace c = false := by
  simp only [isDigitC, decide_eq_true_eq] at h
  simp only [pySpace]
  exact decide_eq_false (by omega)

/-- The characters `generate_random_serial` emits are ASCII digits. -/
theorem serial_char_digit (d : Nat) : isDigitC (Char.ofNat (48 + d % 10)) = true := by
  have hm : d % 10 < 10 := Nat.mod_lt _ (by omega)
  have ht := char_toNat_ofNat (48 + d % 10) (by omega)
  simp only [isDigitC, ht, decide_eq_true_eq]
  omega

/-! ## dropWhile and strip lemmas -/

/-- The head surviving a `dropWhile` fails the predicate. -/
theorem dropWhile_head_not {α : Type} (p : α → Bool) :
    ∀ (l : List α) (h : α), (l.dropWhile p).head? = some h → p h = false := by
  intro l
  induction l with
  | nil => intro h hh; simp [List.dropWhile] at hh
  | cons a t ih =>
      intro h hh
      by_cases hp : p a = true
      · rw [List.dropWhile_cons, if_pos hp] at hh
        exact ih h hh
      · rw [List.dropWhile_cons, if_neg hp] at hh
        simp only [List.head?_cons, Option.some.injEq] at hh
        rw [← hh]
        exact Bool.eq_false_iff.mpr hp

/-- A list whose head fails the predicate is unchanged by `dropWhile`. -/
theorem dropWhile_eq_self_of_head {α : Type} (p : α → Bool) (l : List α)
    (hh : ∀ x, l.head? = some x → p x = false) : l.dropWhile p = l := by
  cases l with
  | nil => rfl
  | cons a t =>
      rw [List.dropWhile_cons, if_neg]
      rw [hh a rfl]
      simp

/-- `dropWhile` is idempotent. -/
theorem dropWhile_idem {α : Type} (p : α → Bool) (l : List α) :
    (l.dropWhile p).dropWhile p = l.dropWhile p :=
  dropWhile_eq_self_of_head p _ (dropWhile_head_not p l)

/-- `dropWhile` removes an initial segment. -/
theorem dropWhile_append_exists {α : Type} (p : α → Bool) (l : List α) :
    ∃ t, t ++ l.dropWhile p = l := by
  induction l with
  | nil => exact ⟨[], rfl⟩
  | cons a t ih =>
      by_cases hp : p a = true
      · obtain ⟨u, hu⟩ := ih
        exact ⟨a :: u, by rw [List.dropWhile_cons, if_pos hp, List.cons_append, hu]⟩
      · exact ⟨[], by rw [List.dropWhile_cons, if_neg hp, List.nil_append]⟩

/-- A list with no character satisfying the predicate is unchanged. -/
theorem dropWhile_eq_self_of_all {α : Type} (p : α → Bool) (l : List α)
    (h : ∀ c ∈ l, p c = false) : l.dropWhile p = l := by
  apply dropWhile_eq_self_of_head
  intro x hx
  cases l with
  | nil => simp at hx
  | cons a t =>
      simp only [List.head?_cons, Option.some.injEq] at hx
      exact hx ▸ h a (by simp)

/-- The reverse of a stripped list is a `dropWhile` image. -/
theorem stripL_reverse (l : List Char) :
    (stripL l).reverse = ((l.dropWhile pySpace).reverse).dropWhile pySpace := by
  simp [stripL]

/-- A stripped list, viewed from the front, is an initial segment of the
left-stripped list. -/
theorem stripL_front (l : List Char) :
    ∃ t, stripL l ++ t = l.dropWhile pySpace := by
  obtain ⟨t, ht⟩ := dropWhile_append_exists pySpace ((l.dropWhile pySpace).reverse)
  refine ⟨t.reverse, ?_⟩
  have := congrArg List.reverse ht
  simp only [List.reverse_append, List.reverse_reverse] at this
  simpa [stripL] using this

/-- The head of a stripped list is not whitespace. -/
theorem stripL_head_not (l : List Char) :
    ∀ h, (stripL l).head? = some h → pySpace h = false := by
  intro h hh
  obtain ⟨t, ht⟩ := stripL_front l
  cases hs : stripL l with
  | nil => rw [hs] at hh; simp at hh
  | cons a r =>
      rw [hs] at hh
      simp only [List.head?_cons, Option.some.injEq] at hh
      rw [hs] at ht
      have : (l.dropWhile pySpace).head? = some a := by
        rw [← ht]; rfl
      exact hh ▸ dropWhile_head_not pySpace l a this

/-- The last character of a stripped list is not whitespace. -/
theorem stripL_last_not (l : List Char) :
    ∀ h, ((stripL l).reverse).head? = some h → pySpace h = false := by
  intro h hh
  rw [stripL_reverse] at hh
  exact dropWhile_head_not pySpace _ h hh

/-- Stripping is idempotent. -/
theorem stripL_idem (l : List Char) : stripL (stripL l) = stripL l := by
  have h1 : (stripL l).dropWhile pySpace = stripL l :=
    dropWhile_eq_self_of_head _ _ (stripL_head_not l)
  have h2 : ((stripL l).reverse).dropWhile pySpace = (stripL l).reverse := by
    rw [stripL_reverse]
    exact dropWhile_idem _ _
  show (((stripL l).dropWhile pySpace).reverse.dropWhile pySpace).reverse = stripL l
  rw [h1, h2, List.reverse_reverse]

/-- Stripping a list with no whitespace at all leaves it unchanged. -/
theorem stripL_eq_self_of_all (l : List Char) (h : ∀ c ∈ l, pySpace c = false) :
    stripL l = l := by
  show ((l.dropWhile pySpace).reverse.dropWhile pySpace).reverse = l
  rw [dropWhile_eq_self_of_all _ _ h,
    dropWhile_eq_self_of_all _ _ (by intro c hc; exact h c (List.mem_reverse.mp hc)),
    List.reverse_reverse]

/-- Case folding and stripping commute. -/
theorem stripL_lowerL (l : List Char) : stripL (lowerL l) = lowerL (stripL l) := by
  have hps : (pySpace ∘ pyLowerChar) = pySpace := funext pySpace_pyLowerChar
  show ((((l.map pyLowerChar).dropWhile pySpace).reverse).dropWhile pySpace).reverse
      = (stripL l).map pyLowerChar
  rw [List.dropWhile_map, hps, ← List.map_reverse, List.dropWhile_map, hps,
    ← List.map_reverse]
  rfl

/-- Case folding is idempotent on lists. -/
theorem lowerL_idem (l : List Char) : lowerL (lowerL l) = lowerL l := by
  show (l.map pyLowerChar).map pyLowerChar = l.map pyLowerChar
  rw [List.map_map]
  exact List.map_congr_left fun c _ => pyLowerChar_idem c

/-- The canonical form `.strip().lower()` is a fixed point of itself. -/
theorem canon_idem (s : String) :
    pyLower (pyStrip (pyLower (pyStrip s))) = pyLower (pyStrip s) := by
  show String.mk (lowerL (stripL (lowerL (stripL s.toList))))
      = String.mk (lowerL (stripL s.toList))
  rw [stripL_lowerL, stripL_idem, lowerL_idem]

/-! ## Association-list and config-store lemmas -/

/-- Setting a key then reading it back yields the set value. -/
theorem assocGet_assocSet_self {α : Type} (m : List (String × α)) (k : String) (v : α) :
    assocGet (assocSet m k v) k = some v := by
  induction m with
  | nil => simp [assocGet, assocSet]
  | cons kv rest ih =>
      obtain ⟨k', v'⟩ := kv
      by_cases h : k' = k
      · simp [assocSet, assocGet, h]
      · simp [assocSet, assocGet, h, ih]

/-- Setting one key leaves the binding of every other key unchanged. -/
theorem assocGet_assocSet_ne {α : Type} (m : List (String × α)) (k k' : String) (v : α)
    (h : k ≠ k') : assocGet (assocSet m k v) k' = assocGet m k' := by
  induction m with
  | nil => simp [assocGet, assocSet, h]
  | cons kv rest ih =>
      obtain ⟨k0, v0⟩ := kv
      by_cases h0 : k0 = k
      · subst h0
        simp [assocSet, assocGet, h]
      · simp [assocSet, assocGet, h0, ih]

/-- Looking up a key absent from the front part finds the appended binding. -/
theorem assocGet_append_absent {α : Type} (m : List (String × α)) (k : String) (v : α)
    (h : assocGet m k = none) : assocGet (m ++ [(k, v)]) k = some v := by
  induction m with
  | nil => simp [assocGet]
  | cons kv rest ih =>
      obtain ⟨k0, v0⟩ := kv
      by_cases h0 : k0 = k
      · simp [assocGet, h0] at h
      · simp only [List.cons_append, assocGet, h0, if_false] at h ⊢
        exact ih h

/-- Writing to a present section and reading the same section and key back
yields the written value. -/
theorem getRaw_configSet_self (cfg : RawConfig) (sec key val : String)
    (h : hasSection cfg sec = true) :
    getRaw (configSet cfg sec key val) sec key = some val := by
  simp only [hasSection, Option.isSome_iff_exists] at h
  obtain ⟨opts, hopts⟩ := h
  simp only [configSet, hopts, getRaw, assocGet_assocSet_self, Option.bind_some]
  exact assocGet_assocSet_self opts (optionxform key) val

/-- The section-creating write of `save_config_change` round-trips. -/
theorem getRaw_save_config_change (cfg : RawConfig) (sec key val : String) :
    getRaw (save_config_change cfg sec key val) sec key = some val := by
  by_cases h : hasSection cfg sec = true
  · simp only [save_config_change, h, if_true]
    exact getRaw_configSet_self cfg sec key val h
  · simp only [save_config_change, h, if_false]
    apply getRaw_configSet_self
    have h' : assocGet cfg sec = none := by
      cases hq : assocGet cfg sec with
      | none => rfl
      | some o => exact absurd (by simp [hasSection, hq]) h
    simp [hasSection, assocGet_append_absent cfg sec [] h']

/-! ## Substring lemmas -/

/-- A list is a prependix of itself. -/
theorem isPrefixOf_self (l : List Char) : l.isPrefixOf l = true := by
  induction l with
  | nil => rfl
  | cons c t ih => simp [List.isPrefixOf, ih]

/-- A list is a prependix of itself followed by anything. -/
theorem isPrefixOf_append_self (l t : List Char) : l.isPrefixOf (l ++ t) = true := by
  induction l with
  | nil => simp [List.isPrefixOf]
  | cons c r ih => simp [List.isPrefixOf, ih]

/-- A needle is found in any haystack ending with it. -/
theorem pyContainsL_append_self (a n : List Char) : pyContainsL (a ++ n) n = true := by
  induction a with
  | nil =>
      cases n with
      | nil => rfl
      | cons c t =>
          show pyContainsL (c :: t) (c :: t) = true
          rw [pyContainsL]
          rw [isPrefixOf_self]
          rfl
  | cons c a' ih =>
      rw [List.cons_append, pyContainsL, ih]
      simp

/-- Scanning past a character that differs from the needle's head changes
nothing. -/
theorem pyContainsL_cons_ne (c : Char) (t : List Char) (n0 : Char) (nr : List Char)
    (h : c ≠ n0) : pyContainsL (c :: t) (n0 :: nr) = pyContainsL t (n0 :: nr) := by
  rw [pyContainsL]
  have : (n0 :: nr).isPrefixOf (c :: t) = false := by
    simp only [List.isPrefixOf]
    rw [beq_eq_false_iff_ne.mpr (fun hc => h hc.symm)]
    rfl
  rw [this]
  rfl

/-- Scanning past a digit run cannot start a match of a slash-headed
needle. -/
theorem pyContainsL_digits (d rest nr : List Char)
    (hd : ∀ c ∈ d, isDigitC c = true) :
    pyContainsL (d ++ rest) ('/' :: nr) = pyContainsL rest ('/' :: nr) := by
  induction d with
  | nil => rfl
  | cons c d' ih =>
      have hc : c ≠ '/' := by
        intro hc
        have := hd c (by simp)
        rw [hc] at this
        simp [isDigitC] at this
      rw [List.cons_append, pyContainsL_cons_ne c _ '/' nr hc]
      exact ih fun x hx => hd x (by simp [hx])

/-! ## Path-splitting lemmas -/

/-- `listSplit` never returns an empty list of segments. -/
theorem listSplit_ne_nil (sep : Char) (l : List Char) : listSplit sep l ≠ [] := by
  cases l with
  | nil => simp [listSplit]
  | cons c rest =>
      rw [listSplit]
      by_cases h : c = sep
      · simp [h]
      · simp only [h, if_false]
        cases listSplit sep rest <;> simp

/-- A separator-free list splits into a single segment. -/
theorem listSplit_no_sep (sep : Char) (a : List Char) (h : ∀ c ∈ a, c ≠ sep) :
    listSplit sep a = [a] := by
  induction a with
  | nil => rfl
  | cons c a' ih =>
      rw [listSplit, if_neg (h c (by simp)), ih fun x hx => h x (by simp [hx])]

/-- Splitting at the first separator after a separator-free segment. -/
theorem listSplit_append (sep : Char) (a b : List Char) (h : ∀ c ∈ a, c ≠ sep) :
    listSplit sep (a ++ sep :: b) = a :: listSplit sep b := by
  induction a with
  | nil => simp [listSplit]
  | cons c a' ih =>
      rw [List.cons_append, listSplit, if_neg (h c (by simp)),
        ih fun x hx => h x (by simp [hx])]

/-! ## Token-stripping and digit-rendering lemmas -/

/-- Removing the `output_` token from a list it starts is removing exactly
that occurrence. -/
theorem stripOutputTok_append (t : List Char) :
    stripOutputTok (outputTok ++ t) = stripOutputTok t := by
  have h1 : outputTok ++ t = 'o' :: ("utput_".toList ++ t) := rfl
  have hp : outputTok.isPrefixOf ('o' :: ("utput_".toList ++ t)) = true := by
    rw [← h1]
    exact isPrefixOf_append_self _ _
  rw [h1, stripOutputTok, if_pos hp]
  have h2 : List.drop 6 ("utput_".toList ++ t) = t := rfl
  rw [h2]

/-- A pure digit run contains no `output_` occurrence to strip. -/
theorem stripOutputTok_digits (d : List Char) (hd : ∀ c ∈ d, isDigitC c = true) :
    stripOutputTok d = d := by
  induction d with
  | nil => rw [stripOutputTok]
  | cons c d' ih =>
      have hc : c ≠ 'o' := by
        intro hc
        have := hd c (by simp)
        rw [hc] at this
        simp [isDigitC] at this
      rw [stripOutputTok, if_neg, ih fun x hx => hd x (by simp [hx])]
      show ¬outputTok.isPrefixOf (c :: d') = true
      simp only [outputTok]
      show ¬List.isPrefixOf ('o' :: "utput_".toList) (c :: d') = true
      simp only [List.isPrefixOf]
      rw [beq_eq_false_iff_ne.mpr (fun hco => hc hco.symm)]
      simp

/-- Every character the rendering worker emits is an ASCII digit. -/
theorem natToCharsAux_digits (fuel : Nat) :
    ∀ n c, c ∈ natToCharsAux fuel n → isDigitC c = true := by
  induction fuel with
  | zero => intro n c hc; simp [natToCharsAux] at hc
  | succ fuel ih =>
      intro n c hc
      rw [natToCharsAux] at hc
      by_cases h : n < 10
      · rw [if_pos h] at hc
        simp only [List.mem_singleton] at hc
        subst hc
        have ht := char_toNat_ofNat (48 + n) (by omega)
        simp only [isDigitC, ht, decide_eq_true_eq]
        omega
      · rw [if_neg h] at hc
        rcases List.mem_append.mp hc with h1 | h2
        · exact ih (n / 10) c h1
        · simp only [List.mem_singleton] at h2
          subst h2
          have hm : n % 10 < 10 := Nat.mod_lt _ (by omega)
          have ht := char_toNat_ofNat (48 + n % 10) (by omega)
          simp only [isDigitC, ht, decide_eq_true_eq]
          omega

/-- Every character of `natToChars` is an ASCII digit. -/
theorem natToChars_digits (n : Nat) : ∀ c ∈ natToChars n, isDigitC c = true :=
  fun c hc => natToCharsAux_digits (n + 1) n c hc

/-- `natToChars` is never empty. -/
theorem natToChars_ne_nil (n : Nat) : natToChars n ≠ [] := by
  rw [natToChars, natToCharsAux]
  by_cases h : n < 10
  · rw [if_pos h]; simp
  · rw [if_neg h]; simp

/-! ## Registered-path lemmas -/

/-- The character list of a registered `State` path, exposing the closing
`/State` segment. -/
theorem statePath_toList (j : Nat) :
    (statePath j).toList
      = ("/SwitchableOutput/output_".toList ++ natToChars j) ++ "/State".toList := by
  show (("/SwitchableOutput/output_" ++ natStr j) ++ "/State").data = _
  rw [String.data_append, String.data_append]
  rfl

/-- Every registered `State` path passes the handler's substring test. -/
theorem pyContains_statePath (j : Nat) : pyContains (statePath j) "/State" = true := by
  unfold pyContains
  rw [statePath_toList]
  exact pyContainsL_append_self _ _

/-! ## Settings-path lemmas -/

/-- An empty needle is found everywhere. -/
theorem pyContainsL_nil_needle (hay : List Char) : pyContainsL hay [] = true := by
  cases hay with
  | nil => rfl
  | cons c t => simp [pyContainsL, List.isPrefixOf]

/-- A needle is found in any haystack containing it in the middle. -/
theorem pyContainsL_append_mid (a n b : List Char) :
    pyContainsL (a ++ (n ++ b)) n = true := by
  induction a with
  | nil =>
      cases n with
      | nil => exact pyContainsL_nil_needle _
      | cons c t =>
          show pyContainsL ((c :: t) ++ b) (c :: t) = true
          rw [List.cons_append, pyContainsL]
          have hp : (c :: t).isPrefixOf (c :: (t ++ b)) = true := by
            rw [← List.cons_append]
            exact isPrefixOf_append_self _ _
          rw [hp]
          rfl
  | cons c a' ih =>
      rw [List.cons_append, pyContainsL, ih]
      simp

/-- A digit character is not a slash. -/
theorem digit_ne_slash (c : Char) (h : isDigitC c = true) : c ≠ '/' := by
  intro hc
  rw [hc] at h
  exact absurd h (by decide)

/-- The flat character list of a registered settings path. -/
theorem settingsPath_toList_flat (j : Nat) (key : String) :
    (settingsPath j key).toList
      = "/SwitchableOutput/output_".toList
          ++ (natToChars j ++ ("/Settings/".toList ++ key.toList)) := by
  show ((("/SwitchableOutput/output_" ++ natStr j) ++ "/Settings/") ++ key).data = _
  rw [String.data_append, String.data_append, String.data_append,
    List.append_assoc, List.append_assoc]
  rfl

/-- The same list grouped at each slash, ready for splitting. -/
theorem settingsPath_toList_grouped (j : Nat) (key : String) :
    (settingsPath j key).toList
      = '/' :: ("SwitchableOutput".toList
          ++ '/' :: (("output_".toList ++ natToChars j)
          ++ '/' :: ("Settings".toList ++ '/' :: key.toList))) := by
  rw [settingsPath_toList_flat]
  rw [show "/SwitchableOutput/output_".toList
      = '/' :: ("SwitchableOutput".toList ++ '/' :: "output_".toList) from rfl]
  simp [List.append_assoc]

/-- A registered settings path never passes the `/State` substring test. -/
theorem settingsPath_no_state (j : Nat) (key : String)
    (hkey : key = "CustomName" ∨ key = "Group") :
    pyContains (settingsPath j key) "/State" = false := by
  rcases hkey with h | h <;> subst h
  · unfold pyContains
    rw [settingsPath_toList_flat]
    show pyContainsL
      ('/' :: 'S' :: 'w' :: 'i' :: 't' :: 'c' :: 'h' :: 'a' :: 'b' :: 'l' :: 'e' ::
        'O' :: 'u' :: 't' :: 'p' :: 'u' :: 't' :: '/' :: 'o' :: 'u' :: 't' ::
        'p' :: 'u' :: 't' :: '_' ::
        (natToChars j ++ ("/Settings/".toList ++ "CustomName".toList)))
      ['/', 'S', 't', 'a', 't', 'e'] = false
    simp [pyContainsL, List.isPrefixOf]
    rw [pyContainsL_digits _ _ _ (natToChars_digits j)]
    decide
  · unfold pyContains
    rw [settingsPath_toList_flat]
    show pyContainsL
      ('/' :: 'S' :: 'w' :: 'i' :: 't' :: 'c' :: 'h' :: 'a' :: 'b' :: 'l' :: 'e' ::
        'O' :: 'u' :: 't' :: 'p' :: 'u' :: 't' :: '/' :: 'o' :: 'u' :: 't' ::
        'p' :: 'u' :: 't' :: '_' ::
        (natToChars j ++ ("/Settings/".toList ++ "Group".toList)))
      ['/', 'S', 't', 'a', 't', 'e'] = false
    simp [pyContainsL, List.isPrefixOf]
    rw [pyContainsL_digits _ _ _ (natToChars_digits j)]
    decide

/-- A registered settings path passes the `/Settings` substring test. -/
theorem settingsPath_has_settings (j : Nat) (key : String) :
    pyContains (settingsPath j key) "/Settings" = true := by
  unfold pyContains
  rw [settingsPath_toList_flat]
  rw [show "/Settings/".toList ++ key.toList
      = "/Settings".toList ++ ('/' :: key.toList) from by simp]
  rw [← List.append_assoc]
  exact pyContainsL_append_mid _ _ _

/-- A registered settings path is longer than `/CustomName`, hence distinct
from it. -/
theorem settingsPath_ne_customName (j : Nat) (key : String) :
    settingsPath j key ≠ "/CustomName" := by
  intro h
  have hd : (settingsPath j key).toList = "/CustomName".toList := by rw [h]
  rw [settingsPath_toList_flat] at hd
  have hlen := congrArg List.length hd
  simp only [List.length_append] at hlen
  have h25 : "/SwitchableOutput/output_".toList.length = 25 := rfl
  have h10 : "/Settings/".toList.length = 10 := rfl
  have h11 : "/CustomName".toList.length = 11 := rfl
  rw [h25, h10, h11] at hlen
  omega

/-- Splitting at a leading separator. -/
theorem listSplit_sep_cons (sep : Char) (rest : List Char) :
    listSplit sep (sep :: rest) = [] :: listSplit sep rest := by
  rw [listSplit, if_pos rfl]

/-- How `path.split('/')` decomposes a registered settings path. -/
theorem settingsPath_split (j : Nat) (key : String)
    (hk : ∀ c ∈ key.toList, c ≠ '/') :
    listSplit '/' (settingsPath j key).toList
      = [[], "SwitchableOutput".toList, "output_".toList ++ natToChars j,
         "Settings".toList, key.toList] := by
  rw [settingsPath_toList_grouped, listSplit_sep_cons,
    listSplit_append _ _ _ (by decide),
    listSplit_append _ _ _ ?side,
    listSplit_append _ _ _ (by decide),
    listSplit_no_sep _ _ hk]
  case side =>
    intro c hc
    rcases List.mem_append.mp hc with h1 | h2
    · exact (by decide : ∀ x ∈ "output_".toList, x ≠ '/') c h1
    · exact digit_ne_slash c (natToChars_digits j c h2)

/-- `handle_dbus_change`'s path parse recovers the output index digits and
the setting key from a registered settings path. -/
theorem settingsPathParts_eval (j : Nat) (key : String)
    (hk : ∀ c ∈ key.toList, c ≠ '/') :
    settingsPathParts (settingsPath j key) = some (natToChars j, key.toList) := by
  unfold settingsPathParts
  rw [settingsPath_split j key hk]
  show some (stripOutputTok ("output_".toList ++ natToChars j), key.toList) = _
  rw [show "output_".toList = outputTok from rfl, stripOutputTok_append,
    stripOutputTok_digits _ (natToChars_digits j)]

/-! ## A concrete single-output device for witnesses -/

/-- One device as `run_device_service` builds it for device 1 with a single
output bound to state topic `state/1` and command topic `cmd/1`, broker
connected, all states initially 0. -/
def demoDevice : Device :=
  { deviceIndex := 1
    attrs := [("/CustomName", .str "My Device"),
              ("/SwitchableOutput/output_1/Name", .str "Switch 1"),
              ("/SwitchableOutput/output_1/Status", .int 0),
              ("/SwitchableOutput/output_1/State", .int 0),
              ("/SwitchableOutput/output_1/Settings/CustomName", .str ""),
              ("/SwitchableOutput/output_1/Settings/Group", .str "")]
    stateTopicMap := [("/SwitchableOutput/output_1/State", "state/1")]
    cmdTopicMap := [("/SwitchableOutput/output_1/State", "cmd/1")]
    mqttConnected := true }

/-! ## Claim theorems -/

/-- C1: the claim says every State node always holds a value in {0, 1} and
that any inbound decoded value outside {0, 1} is rejected.  The code accepts
any integer payload: delivering `"2"` on the bound state topic writes the
out-of-range value 2 into the State node, contradicting the claim (and the
handler's own warning text, which says only 'on', 'off', '0', '1' are
expected). -/
theorem c1_inbound_out_of_range_written :
    assocGet (on_mqtt_message demoDevice "state/1" "2").dev.attrs
        "/SwitchableOutput/output_1/State" = some (Value.int 2)
      ∧ Value.int 2 ≠ Value.int 0 ∧ Value.int 2 ≠ Value.int 1 := by
  refine ⟨by decide, by decide, by decide⟩

/-- C2: a valid payload in {on, off, 0, 1} on a bound state topic sets the
bound attribute to the decoded boolean, and a second identical message is
suppressed without further mutation. -/
theorem c2_valid_payload_sets_and_idempotent (dev : Device) (topic path raw : String)
    (v0 : Value) (d : Int)
    (hb : topicToPath dev.stateTopicMap topic = some path)
    (hp : assocGet dev.attrs path = some v0)
    (hr : ((raw = "on" ∨ raw = "1") ∧ d = 1) ∨ ((raw = "off" ∨ raw = "0") ∧ d = 0)) :
    assocGet (on_mqtt_message dev topic raw).dev.attrs path = some (Value.int d) ∧
    on_mqtt_message (on_mqtt_message dev topic raw).dev topic raw
      = ⟨(on_mqtt_message dev topic raw).dev, [], false⟩ := by
  have hd : decodePayload raw = some d := by
    rcases hr with ⟨h1 | h1, h2⟩ | ⟨h1 | h1, h2⟩ <;> subst h1 <;> subst h2 <;> decide
  by_cases hcur : v0 = Value.int d
  · have h1 : on_mqtt_message dev topic raw = ⟨dev, [], false⟩ := by
      simp [on_mqtt_message, hd, hb, hp, hcur]
    refine ⟨by rw [h1]; simpa [hcur] using hp, by rw [h1]; exact h1⟩
  · have h1 : on_mqtt_message dev topic raw
        = ⟨update_dbus_from_mqtt dev path d, [], true⟩ := by
      simp [on_mqtt_message, hd, hb, hp, hcur]
    have hattrs : assocGet (update_dbus_from_mqtt dev path d).attrs path
        = some (Value.int d) := by
      simp [update_dbus_from_mqtt, assocGet_assocSet_self]
    refine ⟨by rw [h1]; exact hattrs, ?_⟩
    have hb2 : topicToPath (update_dbus_from_mqtt dev path d).stateTopicMap topic
        = some path := by
      simpa [update_dbus_from_mqtt] using hb
    rw [h1]
    simp [on_mqtt_message, hd, hb2, hattrs]

/-- C2 witness: `"on"` on `state/1` of the concrete device sets its State
attribute to 1, and a repeat delivery mutates nothing. -/
theorem c2_witness :
    assocGet (on_mqtt_message demoDevice "state/1" "on").dev.attrs
        "/SwitchableOutput/output_1/State" = some (Value.int 1) ∧
    on_mqtt_message (on_mqtt_message demoDevice "state/1" "on").dev "state/1" "on"
      = ⟨(on_mqtt_message demoDevice "state/1" "on").dev, [], false⟩ :=
  c2_valid_payload_sets_and_idempotent demoDevice "state/1"
    "/SwitchableOutput/output_1/State" "on" (Value.int 0) 1
    (by decide) (by decide) (Or.inl ⟨Or.inl rfl, rfl⟩)

/-- C3: delivering any inbound broker message performs no publish: the
update path writes the attribute with `self[path] = value`, which never
reaches the change callback, so nothing is echoed to the command topic. -/
theorem c3_inbound_never_publishes (dev : Device) (topic raw : String) :
    (on_mqtt_message dev topic raw).publishes = [] := by
  cases hd : decodePayload raw with
  | none => simp [on_mqtt_message, hd]
  | some n =>
      cases ht : topicToPath dev.stateTopicMap topic with
      | none => simp [on_mqtt_message, hd, ht]
      | some path =>
          cases ha : assocGet dev.attrs path with
          | none => simp [on_mqtt_message, hd, ht, ha]
          | some cur =>
              by_cases hc : cur = Value.int n
              · simp [on_mqtt_message, hd, ht, ha, hc]
              · simp [on_mqtt_message, hd, ht, ha, hc]

/-- C4: a bus write of 0 or 1 to a State path with a mapped command topic
and a connected client performs exactly one publish, `'ON'` for 1 and
`'OFF'` for 0, unretained, and the value is applied. -/
theorem c4_valid_bus_write_publishes_once (dev : Device) (j : Nat) (v : Int)
    (topic : String)
    (hv : v = 0 ∨ v = 1)
    (hc : assocGet dev.cmdTopicMap (statePath j) = some topic)
    (hconn : dev.mqttConnected = true) :
    busWrite dev (statePath j) (Value.int v)
      = ({ dev with attrs := assocSet dev.attrs (statePath j) (Value.int v) },
         ⟨true, [⟨topic, if v = 1 then "ON" else "OFF", false⟩], []⟩) := by
  have hval : Value.int v = Value.int 0 ∨ Value.int v = Value.int 1 := by
    rcases hv with h | h <;> [exact Or.inl (by rw [h]); exact Or.inr (by rw [h])]
  have hpub : publish_mqtt_command dev (statePath j) (Value.int v)
      = [⟨topic, if v = 1 then "ON" else "OFF", false⟩] := by
    simp [publish_mqtt_command, hconn, hc, Value.int.injEq]
  have hr : handle_dbus_change dev (statePath j) (Value.int v)
      = ⟨true, [⟨topic, if v = 1 then "ON" else "OFF", false⟩], []⟩ := by
    unfold handle_dbus_change
    rw [if_pos (pyContains_statePath j), if_pos hval, hpub]
  simp [busWrite, hr]

/-- C4 witness: writing 1 to the concrete device's State path publishes
exactly `'ON'` to `cmd/1`, unretained. -/
theorem c4_witness :
    busWrite demoDevice (statePath 1) (Value.int 1)
      = ({ demoDevice with
            attrs := assocSet demoDevice.attrs (statePath 1) (Value.int 1) },
         ⟨true, [⟨"cmd/1", if (1 : Int) = 1 then "ON" else "OFF", false⟩], []⟩) :=
  c4_valid_bus_write_publishes_once demoDevice 1 1 "cmd/1"
    (Or.inr rfl) (by decide) rfl

/-- C5: a bus write outside {0, 1} to a State path is rejected: the handler
returns `False`, the device state (hence the prior attribute value) is
unchanged, and nothing is published or persisted. -/
theorem c5_invalid_bus_write_rejected (dev : Device) (j : Nat) (v : Value)
    (hv : v ≠ Value.int 0 ∧ v ≠ Value.int 1) :
    busWrite dev (statePath j) v = (dev, ⟨false, [], []⟩) := by
  have hr : handle_dbus_change dev (statePath j) v = ⟨false, [], []⟩ := by
    unfold handle_dbus_change
    rw [if_pos (pyContains_statePath j), if_neg]
    rintro (h | h)
    · exact hv.1 h
    · exact hv.2 h
  simp [busWrite, hr]

/-- C5 witness: writing 5 to the concrete device's State path is rejected
with no publish and no state change. -/
theorem c5_witness :
    (Value.int 5 ≠ Value.int 0 ∧ Value.int 5 ≠ Value.int 1) ∧
    busWrite demoDevice (statePath 1) (Value.int 5) = (demoDevice, ⟨false, [], []⟩) :=
  ⟨⟨by decide, by decide⟩,
   c5_invalid_bus_write_rejected demoDevice 1 (Value.int 5) ⟨by decide, by decide⟩⟩

/-- C6: a payload that is neither `on` nor `off` nor an integer string after
canonicalisation leaves the device untouched, publishes nothing and returns
normally (the `ValueError` is caught inside the handler). -/
theorem c6_invalid_payload_noop (dev : Device) (topic raw : String)
    (h1 : pyLower (pyStrip raw) ≠ "on") (h2 : pyLower (pyStrip raw) ≠ "off")
    (h3 : pyInt (pyLower (pyStrip raw)) = none) :
    on_mqtt_message dev topic raw = ⟨dev, [], false⟩ := by
  have hd : decodePayload raw = none := by
    unfold decodePayload decodePayloadCore
    rw [if_neg h1, if_neg h2]
    exact h3
  simp [on_mqtt_message, hd]

/-- C6 witness: the payload `"blue"` is rejected without any mutation. -/
theorem c6_witness :
    pyLower (pyStrip "blue") ≠ "on" ∧ pyLower (pyStrip "blue") ≠ "off" ∧
    pyInt (pyLower (pyStrip "blue")) = none ∧
    on_mqtt_message demoDevice "state/1" "blue" = ⟨demoDevice, [], false⟩ :=
  ⟨by decide, by decide, by decide,
   c6_invalid_payload_noop demoDevice "state/1" "blue" (by decide) (by decide)
     (by decide)⟩

/-- C7: a bus write to the device-level `/CustomName` path is persisted
under section `Device_<i>`, key `CustomName`; a bus write to an output's
`Settings/CustomName` or `Settings/Group` path is persisted under section
`Output_<i>_<j>` with the setting key; in both cases the handler accepts,
the section is created when absent, and re-reading the store yields the
written value. -/
theorem c7_metadata_writes_persisted (dev : Device) (j : Nat) (cfg : RawConfig)
    (v key : String) (hkey : key = "CustomName" ∨ key = "Group") :
    handle_dbus_change dev "/CustomName" (Value.str v)
      = ⟨true, [], [("Device_" ++ natStr dev.deviceIndex, "CustomName", v)]⟩
    ∧ getRaw (save_config_change cfg ("Device_" ++ natStr dev.deviceIndex)
          "CustomName" v)
        ("Device_" ++ natStr dev.deviceIndex) "CustomName" = some v
    ∧ handle_dbus_change dev (settingsPath j key) (Value.str v)
      = ⟨true, [],
          [("Output_" ++ natStr dev.deviceIndex ++ "_" ++ natStr j, key, v)]⟩
    ∧ getRaw (save_config_change cfg
          ("Output_" ++ natStr dev.deviceIndex ++ "_" ++ natStr j) key v)
        ("Output_" ++ natStr dev.deviceIndex ++ "_" ++ natStr j) key = some v := by
  have hk : ∀ c ∈ key.toList, c ≠ '/' := by
    rcases hkey with h | h <;> subst h <;> decide
  refine ⟨?_, getRaw_save_config_change _ _ _ _, ?_, getRaw_save_config_change _ _ _ _⟩
  · have h1 : pyContains "/CustomName" "/State" = false := by decide
    simp [handle_dbus_change, h1, pyStr]
  · have h1 := settingsPath_no_state j key hkey
    have h2 := settingsPath_ne_customName j key
    have h3 := settingsPath_has_settings j key
    have h4 := settingsPathParts_eval j key hk
    simp [handle_dbus_change, h1, h2, h3, h4, pyStr, natStr]

/-- C7 witness: writing `"Kitchen"` to output 2's `Settings/Group` on
device 1 is saved under `Output_1_2`/`Group` and reads back, and the device
`CustomName` write round-trips likewise. -/
theorem c7_witness :
    handle_dbus_change demoDevice "/CustomName" (Value.str "Kitchen")
      = ⟨true, [], [("Device_" ++ natStr demoDevice.deviceIndex, "CustomName",
          "Kitchen")]⟩
    ∧ getRaw (save_config_change [] ("Device_" ++ natStr demoDevice.deviceIndex)
          "CustomName" "Kitchen")
        ("Device_" ++ natStr demoDevice.deviceIndex) "CustomName" = some "Kitchen"
    ∧ handle_dbus_change demoDevice (settingsPath 2 "Group") (Value.str "Kitchen")
      = ⟨true, [],
          [("Output_" ++ natStr demoDevice.deviceIndex ++ "_" ++ natStr 2,
            "Group", "Kitchen")]⟩
    ∧ getRaw (save_config_change []
          ("Output_" ++ natStr demoDevice.deviceIndex ++ "_" ++ natStr 2)
          "Group" "Kitchen")
        ("Output_" ++ natStr demoDevice.deviceIndex ++ "_" ++ natStr 2) "Group"
      = some "Kitchen" :=
  c7_metadata_writes_persisted demoDevice 2 [] "Kitchen" "Group" (Or.inr rfl)

/-- C10: payload decoding factors through `.strip().lower()`: every payload
decodes exactly as its lower-cased, whitespace-stripped canonical form does,
so `'ON'`, `' On '` and `'on'` all decode to 1. -/
theorem c10_decode_canonical (s : String) :
    decodePayload s = decodePayload (pyLower (pyStrip s)) ∧
    decodePayload "ON" = some 1 ∧ decodePayload " On " = some 1 ∧
    decodePayload "on" = some 1 := by
  refine ⟨?_, by decide, by decide, by decide⟩
  unfold decodePayload
  rw [canon_idem]

/-! ## Supervisor and serial lemmas -/

/-- Membership in the launch loop's started and skipped lists. -/
theorem mem_launchLoop (cfg : RawConfig) (n : Int) (i : Nat) :
    (i ∈ (launchLoop cfg n).1
      ↔ 1 ≤ i ∧ i ≤ n.toNat ∧ hasSection cfg (devSection i) = true)
    ∧ (i ∈ (launchLoop cfg n).2
      ↔ 1 ≤ i ∧ i ≤ n.toNat ∧ hasSection cfg (devSection i) = false) := by
  unfold launchLoop
  constructor
  · simp only [List.mem_filter, List.mem_map, List.mem_range]
    constructor
    · rintro ⟨⟨a, ha, rfl⟩, hs⟩
      exact ⟨by omega, by omega, hs⟩
    · rintro ⟨h1, h2, hs⟩
      exact ⟨⟨i - 1, by omega, by omega⟩, hs⟩
  · simp only [List.mem_filter, List.mem_map, List.mem_range, Bool.not_eq_true']
    constructor
    · rintro ⟨⟨a, ha, rfl⟩, hs⟩
      exact ⟨by omega, by omega, hs⟩
    · rintro ⟨h1, h2, hs⟩
      exact ⟨⟨i - 1, by omega, by omega⟩, hs⟩

/-- A generated serial is neither empty nor blank after stripping. -/
theorem generate_random_serial_nonblank (draws : List Nat) (h : draws ≠ []) :
    ¬(generate_random_serial draws = ""
      ∨ pyStrip (generate_random_serial draws) = "") := by
  have hdig : ∀ c ∈ (generate_random_serial draws).toList, isDigitC c = true := by
    intro c hc
    show isDigitC c = true
    have hc' : c ∈ draws.map fun d => Char.ofNat (48 + d % 10) := hc
    obtain ⟨d, _, rfl⟩ := List.mem_map.mp hc'
    exact serial_char_digit d
  have hsp : ∀ c ∈ (generate_random_serial draws).toList, pySpace c = false :=
    fun c hc => pySpace_of_digit c (hdig c hc)
  have hstrip : pyStrip (generate_random_serial draws) = generate_random_serial draws := by
    show String.mk (stripL _) = _
    rw [stripL_eq_self_of_all _ hsp]
    rfl
  have hne : generate_random_serial draws ≠ "" := by
    intro h0
    apply h
    have h1 : (draws.map fun d => Char.ofNat (48 + d % 10)) = [] := by
      have := congrArg String.toList h0
      exact this
    exact List.map_eq_nil_iff.mp h1
  rintro (h0 | h0)
  · exact hne h0
  · rw [hstrip] at h0
    exact hne h0

/-! ## C8: supervisor device counting -/

/-- A configuration with an unparsable `NumberOfDevices`, where the claim
predicts a default of 1 and a started device 1. -/
def badCfg8 : RawConfig :=
  [("Global", [iniOpt "NumberOfDevices" "abc"]),
   ("Device_1", [iniOpt "CustomName" "dev one"])]

/-- The scenario configuration: `NumberOfDevices = 2` with `Device_2`
missing. -/
def demoCfg8 : RawConfig :=
  [("Global", [iniOpt "NumberOfDevices" "2"]),
   ("Device_1", [iniOpt "CustomName" "dev one"])]

/-- C8 counterexample: with `NumberOfDevices = "abc"` the claim says the
supervisor defaults to 1 device with a warning and starts device 1; the code
instead raises an uncaught `ValueError` (`main` catches only the missing
section/option errors), so no device is started. -/
theorem c8_counterexample : supervisorMain badCfg8 = Except.error "ValueError" := rfl

/-- C8 amended: a missing `Global.NumberOfDevices` (section or option
absent) defaults to 1 with a warning, but an unparsable value is an uncaught
error; whenever the supervisor runs its loop, exactly the device indices
`1..N` with an existing `Device_<i>` section are started and the rest are
skipped with a warning, and in the scenario (`NumberOfDevices = 2`,
`Device_2` missing) only device 1 starts. -/
theorem c8_supervisor_skips_missing (cfg : RawConfig) :
    (getRaw cfg "Global" "NumberOfDevices" = none →
      ∃ r, supervisorMain cfg = .ok r ∧ r.numDevices = 1 ∧ r.defaulted = true)
    ∧ (∀ r, supervisorMain cfg = .ok r → ∀ i : Nat,
        (i ∈ r.started
          ↔ 1 ≤ i ∧ i ≤ r.numDevices.toNat ∧ hasSection cfg (devSection i) = true)
        ∧ (i ∈ r.skipped
          ↔ 1 ≤ i ∧ i ≤ r.numDevices.toNat ∧ hasSection cfg (devSection i) = false))
    ∧ supervisorMain demoCfg8 = .ok ⟨2, false, [1], [2]⟩ := by
  refine ⟨?_, ?_, rfl⟩
  · intro h
    have hg : configGetInt cfg "Global" "NumberOfDevices" = .missing := by
      simp [configGetInt, h]
    exact ⟨⟨1, true, (launchLoop cfg 1).1, (launchLoop cfg 1).2⟩,
      by simp [supervisorMain, hg], rfl, rfl⟩
  · intro r hr i
    cases hg : configGetInt cfg "Global" "NumberOfDevices" with
    | badValue => simp [supervisorMain, hg] at hr
    | missing =>
        simp [supervisorMain, hg] at hr
        rw [← hr]
        exact mem_launchLoop cfg 1 i
    | ok n =>
        simp [supervisorMain, hg] at hr
        rw [← hr]
        exact mem_launchLoop cfg n i

/-- C8 witness: a configuration with no `Global` section at all defaults to
one device. -/
theorem c8_witness :
    ∃ r, supervisorMain [("Device_1", [iniOpt "CustomName" "x"])] = .ok r
      ∧ r.numDevices = 1 ∧ r.defaulted = true :=
  (c8_supervisor_skips_missing [("Device_1", [iniOpt "CustomName" "x"])]).1 rfl

/-! ## C9: serial identity across startups -/

/-- A configuration entry that already stores a serial. -/
def cfg9stored : RawConfig :=
  [("Device_1", [iniOpt "Serial" "1111111111111111"])]

/-- Sixteen fixed draws standing for one run of the random generator. -/
def demoDraws : List Nat := [2, 2, 2, 2, 2, 2, 2, 2, 2, 2, 2, 2, 2, 2, 2, 2]

/-- C9 counterexample: in the earlier variant (switches.py lines 156-162,
cited by the claim) a serial present in the device's configuration entry is
not used: a fresh serial is generated on every start, the published service
name carries the fresh serial, and nothing is written back, so the serial
changes across restarts. -/
theorem c9_counterexample :
    getRaw cfg9stored "Device_1" "Serial" = some "1111111111111111"
    ∧ (switches_run_serial cfg9stored demoDraws).1 = "2222222222222222"
    ∧ (switches_run_serial cfg9stored demoDraws).1 ≠ "1111111111111111"
    ∧ service_name_of (switches_run_serial cfg9stored demoDraws).1
        = "com.victronenergy.switch.virtual_2222222222222222"
    ∧ (switches_run_serial cfg9stored demoDraws).2 = cfg9stored :=
  ⟨by decide, by decide, by decide, by decide, rfl⟩

/-- C9 amended: in the MQTT device service a stored nonblank serial is used
unchanged with no write-back; a missing serial is replaced by the generated
one, written back immediately and readable back; and rerunning startup on
the resulting store returns the same serial and store, so the serial
(carried into the published service name) never changes once loaded or
generated.  (The earlier non-MQTT variant regenerates a serial each start;
see the counterexample.) -/
theorem c9_serial_stable (cfg : RawConfig) (sec fresh fresh' : String)
    (draws : List Nat)
    (hfresh : fresh = generate_random_serial draws) (hne : draws ≠ [])
    (hsec : hasSection cfg sec = true) :
    (∀ s, getRaw cfg sec "Serial" = some s → ¬(s = "" ∨ pyStrip s = "") →
        resolveSerial cfg sec fresh = (s, cfg))
    ∧ (getRaw cfg sec "Serial" = none →
        resolveSerial cfg sec fresh = (fresh, configSet cfg sec "Serial" fresh)
        ∧ getRaw (configSet cfg sec "Serial" fresh) sec "Serial" = some fresh)
    ∧ (∀ s1 cfg1, resolveSerial cfg sec fresh = (s1, cfg1) →
        resolveSerial cfg1 sec fresh' = (s1, cfg1))
    ∧ service_name_of fresh = "com.victronenergy.switch.virtual_" ++ fresh := by
  have hblank : ¬(fresh = "" ∨ pyStrip fresh = "") := by
    rw [hfresh]
    exact generate_random_serial_nonblank draws hne
  refine ⟨?_, ?_, ?_, rfl⟩
  · intro s hs hnb
    simp only [resolveSerial, hs]
    rw [if_neg hnb]
  · intro hnone
    refine ⟨?_, getRaw_configSet_self cfg sec "Serial" fresh hsec⟩
    simp only [resolveSerial, hnone]
  · intro s1 cfg1 hrun
    cases hg : getRaw cfg sec "Serial" with
    | none =>
        simp only [resolveSerial, hg] at hrun
        injection hrun with h1 h2
        subst h1
        subst h2
        simp only [resolveSerial, getRaw_configSet_self cfg sec "Serial" fresh hsec]
        rw [if_neg hblank]
    | some s =>
        simp only [resolveSerial, hg] at hrun
        by_cases hb : s = "" ∨ pyStrip s = ""
        · rw [if_pos hb] at hrun
          injection hrun with h1 h2
          subst h1
          subst h2
          simp only [resolveSerial, getRaw_configSet_self cfg sec "Serial" fresh hsec]
          rw [if_neg hblank]
        · rw [if_neg hb] at hrun
          injection hrun with h1 h2
          subst h1
          subst h2
          simp only [resolveSerial, hg]
          rw [if_neg hb]

/-- C9 witness: a device section with no stored serial gets the generated
one, written back and readable, and a second startup returns it
unchanged. -/
theorem c9_witness :
    resolveSerial [("Device_1", [iniOpt "CustomName" "x"])] "Device_1"
        (generate_random_serial demoDraws)
      = (generate_random_serial demoDraws,
         configSet [("Device_1", [iniOpt "CustomName" "x"])] "Device_1" "Serial"
           (generate_random_serial demoDraws))
    ∧ getRaw (configSet [("Device_1", [iniOpt "CustomName" "x"])] "Device_1"
          "Serial" (generate_random_serial demoDraws)) "Device_1" "Serial"
      = some (generate_random_serial demoDraws) :=
  (c9_serial_stable [("Device_1", [iniOpt "CustomName" "x"])] "Device_1"
    (generate_random_serial demoDraws) "9" demoDraws rfl (by decide)
    (by decide)).2.1 rfl

/-- C3 witness: the concrete device's handling of `"ON"` publishes
nothing. -/
theorem c3_witness : (on_mqtt_message demoDevice "state/1" "ON").publishes = [] :=
  c3_inbound_never_publishes demoDevice "state/1" "ON"

/-- C10 witness: the concrete payload `" OFF "` decodes as its canonical
form `"off"` does. -/
theorem c10_witness :
    decodePayload " OFF " = decodePayload (pyLower (pyStrip " OFF ")) :=
  (c10_decode_canonical " OFF ").1

end VSwitch
